/-
Verification of the headway computation and bucketing engine of the
`mta-mf-swap` repository (Roosevelt Island F/M swap headway analysis).

The pandas pipeline of `3_analyze.py` and the dashboard data layer of
`data_loader.py` are shallowly embedded as pure functions over lists of
records.  Conventions used throughout:

* dataframes are lists of structure values, one structure per row;
* numeric columns (`timestamp` seconds, `headway_min` minutes) are `ℚ`;
* civil dates are ordinal day numbers (`ℤ`); the exact encoding is
  irrelevant, only equality and order of dates are used;
* a value that pandas would hold as NaN / missing (unparseable numeric,
  unmatched left-join key) is an `Option`;
* `pd.sort_values` over string columns compares strings by code point,
  which is exactly the lexicographic order of `String.data : List Char`;
* pandas raising an exception is modelled with `Except`.
-/
import Mathlib

set_option maxRecDepth 2000

namespace Analyze

/-- Table `TIME_BUCKETS` from `3_analyze.py`:
`(start_hour_inclusive, end_hour_exclusive, weekday_label, weekend_label)`. -/
def TIME_BUCKETS : List (ℕ × ℕ × String × String) :=
  [ ( 0,  6, "1: Early AM (12–6 AM)",      "1: Early AM (12–6 AM)"),
    ( 6,  9, "2: Morning Rush (6–9 AM)",   "2: Morning (6–9 AM)"),
    ( 9, 16, "3: Midday (9 AM–4 PM)",      "3: Midday (9 AM–4 PM)"),
    (16, 19, "4: Evening Rush (4–7 PM)",   "4: Afternoon/Evening (4–7 PM)"),
    (19, 24, "5: Night (7 PM–midnight)",   "5: Night (7 PM–midnight)") ]

/-- Function `assign_time_bucket(hour, is_weekday)` from `3_analyze.py`: the first
bucket whose half-open hour range contains `hour` yields its weekday or
weekend label; the fallback is `"Unknown"`. -/
def assign_time_bucket (hour : ℕ) (is_weekday : Bool) : String :=
  match TIME_BUCKETS.find? (fun b => decide (b.1 ≤ hour) && decide (hour < b.2.1)) with
  | some b => if is_weekday then b.2.2.1 else b.2.2.2
  | none => "Unknown"

end Analyze

namespace DataLoader

/-- Table `TIME_BUCKETS` from `data_loader.py`:
`(start_hour_inclusive, end_hour_exclusive, label)`. -/
def TIME_BUCKETS : List (ℕ × ℕ × String) :=
  [ ( 0,  6, "Early AM (12–6 AM)"),
    ( 6,  9, "Morning Rush (6–9 AM)"),
    ( 9, 16, "Midday (9 AM–4 PM)"),
    (16, 19, "Evening Rush (4–7 PM)"),
    (19, 24, "Night (7 PM–midnight)") ]

/-- Function `_assign_bucket(hour)` from `data_loader.py` (the leading underscore of
the Python name is dropped): the first bucket whose half-open hour range
contains `hour`; the fallback is `"Unknown"`. -/
def assign_bucket (hour : ℕ) : String :=
  match TIME_BUCKETS.find? (fun b => decide (b.1 ≤ hour) && decide (hour < b.2.1)) with
  | some b => b.2.2
  | none => "Unknown"

end DataLoader

/-- C3: for every integer hour in `[0,24)` and both weekday flags, the
time-bucket assigner of `3_analyze.py` and the one of `data_loader.py`
return a label different from the `"Unknown"` fallback, and in both bucket
tables exactly one half-open hour range contains the hour (the five ranges
partition `[0,24)` with no gap and no overlap). -/
theorem assign_time_bucket_total_and_partition :
    ∀ h : Fin 24, ∀ w : Bool,
      Analyze.assign_time_bucket h.val w ≠ "Unknown" ∧
      DataLoader.assign_bucket h.val ≠ "Unknown" ∧
      Analyze.TIME_BUCKETS.countP
        (fun b => decide (b.1 ≤ h.val) && decide (h.val < b.2.1)) = 1 ∧
      DataLoader.TIME_BUCKETS.countP
        (fun b => decide (b.1 ≤ h.val) && decide (h.val < b.2.1)) = 1 := by
  decide

/-- C8 counterexample: at hour 6 on a weekday, `assign_time_bucket` returns
`"2: Morning Rush (6–9 AM)"` — the table text of the spec carries no
`"2: "` prefix, so the function does not return the label
`"Morning Rush (6–9 AM)"` claimed. -/
theorem assign_time_bucket_label_cex :
    Analyze.assign_time_bucket 6 true = "2: Morning Rush (6–9 AM)" ∧
    Analyze.assign_time_bucket 6 true ≠ "Morning Rush (6–9 AM)" := by
  decide

/-- C8 amended: for every hour of `[0,24)` and both weekday flags,
`assign_time_bucket` returns exactly the spec table's weekday/weekend label
text for the range containing the hour, prefixed with the bucket's ordinal
and a colon (`"2: Morning Rush (6–9 AM)"` for `[6,9)` weekday,
`"2: Morning (6–9 AM)"` weekend, and analogously for the other ranges). -/
theorem assign_time_bucket_labels :
    ∀ h : Fin 24, ∀ w : Bool,
      Analyze.assign_time_bucket h.val w =
        (if h.val < 6 then "1: Early AM (12–6 AM)"
         else if h.val < 9 then
           (if w then "2: Morning Rush (6–9 AM)" else "2: Morning (6–9 AM)")
         else if h.val < 16 then "3: Midday (9 AM–4 PM)"
         else if h.val < 19 then
           (if w then "4: Evening Rush (4–7 PM)" else "4: Afternoon/Evening (4–7 PM)")
         else "5: Night (7 PM–midnight)") := by
  decide

namespace Analyze

/-- One enriched arrival record, i.e. one row of the dataframe that
`compute_headways` consumes in `3_analyze.py` (output of
`add_analysis_columns`).  `arrival_dt` is the arrival instant in seconds;
`arrival_date` is the localized civil date as an ordinal day number. -/
structure HwRec where
  arrival_date : ℤ
  direction : String
  time_bucket : String
  day_type : String
  swap_period : String
  arrival_dt : ℚ
deriving DecidableEq, Repr

/-- Sort key of `df.sort_values(["arrival_date", "direction", "time_bucket",
"arrival_dt"])`: lexicographic on the four columns, strings compared by code
point (`String.data`). -/
def hwKey (r : HwRec) : Lex (ℤ × Lex (List Char × Lex (List Char × ℚ))) :=
  toLex (r.arrival_date, toLex (r.direction.data, toLex (r.time_bucket.data, r.arrival_dt)))

/-- Row order used by the sort in `compute_headways`. -/
def hwLe (a b : HwRec) : Prop := hwKey a ≤ hwKey b

instance : DecidableRel hwLe := fun a b => inferInstanceAs (Decidable (hwKey a ≤ hwKey b))

instance : IsTotal HwRec hwLe := ⟨fun a b => le_total (hwKey a) (hwKey b)⟩

instance : IsTrans HwRec hwLe := ⟨fun _ _ _ hab hbc => le_trans hab hbc⟩

/-- The `groupby` key of `compute_headways`:
`["arrival_date", "direction", "time_bucket"]`. -/
def groupKey (r : HwRec) : ℤ × String × String :=
  (r.arrival_date, r.direction, r.time_bucket)

/-- Step `groupby(grp)["arrival_dt"].shift(1)` for one row: the most recent
earlier row of the same group.  `seen` holds the rows that precede the
current row, most recent first. -/
def shiftPrev (r : HwRec) (seen : List HwRec) : Option HwRec :=
  (seen.filter (fun q => groupKey q == groupKey r)).head?

/-- Pair every row of the (already sorted) frame with its shifted
predecessor, walking the frame left to right. -/
def shiftPairs (seen : List HwRec) : List HwRec → List (HwRec × Option HwRec)
  | [] => []
  | r :: rest => (r, shiftPrev r seen) :: shiftPairs (r :: seen) rest

/-- Mask `time_bucket.str.startswith("1:")` from `compute_headways`,
selecting the Early-AM bucket: code-point prefix test on the label. -/
def is_early_bucket (bucket : String) : Bool := "1:".data.isPrefixOf bucket.data

/-- One retained headway observation: the row (`cur`), its shifted
predecessor (`prev`) and the `headway_min` column. -/
structure HwObs where
  cur : HwRec
  prev : HwRec
  headway_min : ℚ
deriving DecidableEq, Repr

/-- Function `compute_headways(df)` from `3_analyze.py`: sort by
(arrival_date, direction, time_bucket, arrival_dt), shift within each
(arrival_date, direction, time_bucket) group, drop rows with no
predecessor, keep `headway_min >= 1`, and keep `headway_min <= 90` for the
Early-AM bucket (`"1:"` prefix) and `headway_min <= 60` otherwise.  The
three successive pandas filters are one combined condition here. -/
def compute_headways (df : List HwRec) : List HwObs :=
  let s := List.insertionSort hwLe df
  (shiftPairs [] s).filterMap fun p =>
    match p.2 with
    | none => none
    | some q =>
      let h := (p.1.arrival_dt - q.arrival_dt) / 60
      if 1 ≤ h ∧ ((is_early_bucket p.1.time_bucket = true ∧ h ≤ 90) ∨
                  (¬ is_early_bucket p.1.time_bucket = true ∧ h ≤ 60)) then
        some ⟨p.1, q, h⟩
      else none

/-- Synthetic enriched arrival at 08:00:00 (28800 s), direction `"N"`,
morning bucket, used by the Scenario A/B theorems. -/
def recA : HwRec :=
  ⟨0, "N", "2: Morning Rush (6–9 AM)", "Weekday", "Before swap", 28800⟩

/-- Synthetic arrival at 08:06:30 (29190 s), same date/direction/bucket. -/
def recB : HwRec :=
  ⟨0, "N", "2: Morning Rush (6–9 AM)", "Weekday", "Before swap", 29190⟩

/-- Synthetic arrival at 08:00:30 (28830 s), same date/direction/bucket. -/
def recBnear : HwRec :=
  ⟨0, "N", "2: Morning Rush (6–9 AM)", "Weekday", "Before swap", 28830⟩

end Analyze

/-- C9: two enriched arrivals with the same local date, direction `"N"` and
the same time bucket, at 08:00:00 and 08:06:30, produce exactly one
HeadwayObservation, with `headway_minutes = 6.5`; the same setup with the
arrivals 30 seconds apart produces zero observations. -/
theorem compute_headways_scenario_pair :
    (Analyze.compute_headways [Analyze.recA, Analyze.recB]).map
        Analyze.HwObs.headway_min = [6.5] ∧
    Analyze.compute_headways [Analyze.recA, Analyze.recBnear] = [] := by
  with_unfolding_all decide

/-- C2: every observation produced by `compute_headways` has
`headway_min >= 1`, has `headway_min <= 90` when its bucket label starts
with `"1:"` (the Early-AM bucket, label `"1: Early AM (12–6 AM)"`) and
`headway_min <= 60` for every other bucket, and its `headway_min` is the
raw gap of the pair of records divided by 60 — out-of-bound gaps are
dropped, never clamped to the bound. -/
theorem compute_headways_bounds (df : List Analyze.HwRec) :
    ∀ o ∈ Analyze.compute_headways df,
      1 ≤ o.headway_min ∧
      (Analyze.is_early_bucket o.cur.time_bucket = true → o.headway_min ≤ 90) ∧
      (Analyze.is_early_bucket o.cur.time_bucket = false → o.headway_min ≤ 60) ∧
      o.headway_min = (o.cur.arrival_dt - o.prev.arrival_dt) / 60 := by
  intro o ho
  unfold Analyze.compute_headways at ho
  rw [List.mem_filterMap] at ho
  obtain ⟨p, _, hf⟩ := ho
  rcases p with ⟨r, _ | q⟩
  · simp at hf
  · simp only at hf
    split at hf
    · rename_i hc
      cases hf
      refine ⟨hc.1, fun he => ?_, fun he => ?_, rfl⟩
      · rcases hc.2 with ⟨_, h90⟩ | ⟨hne, _⟩
        · exact h90
        · exact absurd he hne
      · rcases hc.2 with ⟨hpos, _⟩ | ⟨_, h60⟩
        · rw [he] at hpos; cases hpos
        · exact h60
    · cases hf

/-- If the head of a filtered list is `p`, the list splits as
`a ++ p :: b` where everything in `a` fails the filter. -/
lemma filter_head_eq_some {α : Type} (f : α → Bool) :
    ∀ {xs : List α} {p : α}, (xs.filter f).head? = some p →
      ∃ a b, xs = a ++ p :: b ∧ f p = true ∧ ∀ q ∈ a, f q = false := by
  intro xs
  induction xs with
  | nil => intro p h; simp at h
  | cons x t ih =>
    intro p h
    by_cases hx : f x = true
    · rw [List.filter_cons_of_pos hx] at h
      simp only [List.head?_cons, Option.some.injEq] at h
      subst h
      exact ⟨[], t, by simp, hx, by simp⟩
    · rw [List.filter_cons_of_neg hx] at h
      obtain ⟨a, b, rfl, hfp, ha⟩ := ih h
      refine ⟨x :: a, b, rfl, hfp, ?_⟩
      intro q hq
      rcases List.mem_cons.mp hq with rfl | hq
      · exact Bool.eq_false_iff.mpr hx
      · exact ha q hq

namespace Analyze

/-- Every pair emitted by `shiftPairs` decomposes the frame around its row,
and its shifted predecessor is computed from everything to the left. -/
lemma shiftPairs_decomp :
    ∀ {l seen : List HwRec} {r : HwRec} {op : Option HwRec},
      (r, op) ∈ shiftPairs seen l →
      ∃ l₁ l₂, l = l₁ ++ r :: l₂ ∧ op = shiftPrev r (l₁.reverse ++ seen) := by
  intro l
  induction l with
  | nil => intro seen r op h; simp [shiftPairs] at h
  | cons x t ih =>
    intro seen r op h
    rw [shiftPairs] at h
    rcases List.mem_cons.mp h with heq | hmem
    · obtain ⟨h1, h2⟩ := Prod.mk.injEq .. ▸ heq
      subst h1
      subst h2
      exact ⟨[], t, rfl, by simp⟩
    · obtain ⟨l₁, l₂, rfl, hop⟩ := ih hmem
      refine ⟨x :: l₁, l₂, rfl, ?_⟩
      rw [hop]
      congr 1
      simp

/-- Two rows of the same (date, direction, bucket) group that are ordered
by the sort key are ordered by arrival instant. -/
lemma hwLe_arrival_le {a b : HwRec} (hk : groupKey a = groupKey b)
    (h : hwLe a b) : a.arrival_dt ≤ b.arrival_dt := by
  obtain ⟨h1, h2, h3⟩ :
      a.arrival_date = b.arrival_date ∧ a.direction = b.direction ∧
        a.time_bucket = b.time_bucket := by
    simpa [groupKey, Prod.ext_iff] using hk
  unfold hwLe hwKey at h
  rw [Prod.Lex.le_iff] at h
  dsimp only at h
  rcases h with hlt | ⟨_, h⟩
  · rw [h1] at hlt; exact absurd hlt (lt_irrefl _)
  · rw [Prod.Lex.le_iff] at h
    dsimp only at h
    rcases h with hlt | ⟨_, h⟩
    · rw [h2] at hlt; exact absurd hlt (lt_irrefl _)
    · rw [Prod.Lex.le_iff] at h
      dsimp only at h
      rcases h with hlt | ⟨_, h⟩
      · rw [h3] at hlt; exact absurd hlt (lt_irrefl _)
      · exact h

end Analyze

/-- C1: every observation pairs two records of the input frame that lie in
the same (arrival_date, direction, time_bucket) group and are adjacent in
arrival order within that group (no record of the group lies strictly
between them); records of different groups are never paired, and no
observation has a timestamp-minimal record of its group as its later
member — so the earliest record of each group contributes zero
observations as the later member of a pair. -/
theorem compute_headways_group_pairing (df : List Analyze.HwRec) :
    ∀ o ∈ Analyze.compute_headways df,
      o.cur ∈ df ∧ o.prev ∈ df ∧
      Analyze.groupKey o.prev = Analyze.groupKey o.cur ∧
      o.prev.arrival_dt ≤ o.cur.arrival_dt ∧
      (∀ w ∈ df, Analyze.groupKey w = Analyze.groupKey o.cur →
        ¬(o.prev.arrival_dt < w.arrival_dt ∧ w.arrival_dt < o.cur.arrival_dt)) ∧
      ¬(∀ w ∈ df, Analyze.groupKey w = Analyze.groupKey o.cur →
          o.cur.arrival_dt ≤ w.arrival_dt) := by
  intro o ho
  unfold Analyze.compute_headways at ho
  rw [List.mem_filterMap] at ho
  obtain ⟨⟨r, op⟩, hp, hf⟩ := ho
  cases op with
  | none => simp at hf
  | some q =>
    simp only at hf
    split at hf
    case isFalse => cases hf
    case isTrue hc =>
    cases hf
    obtain ⟨l₁, l₂, hs, hop⟩ := Analyze.shiftPairs_decomp hp
    rw [List.append_nil] at hop
    unfold Analyze.shiftPrev at hop
    obtain ⟨a, b, hrev, hfq, ha⟩ := filter_head_eq_some _ hop.symm
    have hl₁ : l₁ = b.reverse ++ q :: a.reverse := by
      have h := congrArg List.reverse hrev
      rw [List.reverse_reverse] at h
      rw [h]
      simp
    have hperm : (List.insertionSort Analyze.hwLe df).Perm df :=
      List.perm_insertionSort _ df
    have hsorted : List.Sorted Analyze.hwLe (List.insertionSort Analyze.hwLe df) :=
      List.sorted_insertionSort _ df
    have hs2 : List.insertionSort Analyze.hwLe df =
        b.reverse ++ q :: (a.reverse ++ r :: l₂) := by
      rw [hs, hl₁]
      simp
    rw [hs2] at hsorted hperm
    have hkey : Analyze.groupKey q = Analyze.groupKey r := by
      simpa using hfq
    unfold List.Sorted at hsorted
    rw [List.pairwise_append] at hsorted
    obtain ⟨_, hsorted2, hB⟩ := hsorted
    rw [List.pairwise_cons] at hsorted2
    obtain ⟨hq, hsorted3⟩ := hsorted2
    rw [List.pairwise_append] at hsorted3
    obtain ⟨_, hsorted4, _⟩ := hsorted3
    rw [List.pairwise_cons] at hsorted4
    obtain ⟨hr, _⟩ := hsorted4
    have hrmem : r ∈ df := by
      refine hperm.subset ?_
      exact List.mem_append_right _ (List.mem_cons_of_mem _
        (List.mem_append_right _ (List.mem_cons_self _ _)))
    have hqmem : q ∈ df := by
      refine hperm.subset ?_
      exact List.mem_append_right _ (List.mem_cons_self _ _)
    have hqr : Analyze.hwLe q r :=
      hq r (List.mem_append_right _ (List.mem_cons_self _ _))
    have hts : q.arrival_dt ≤ r.arrival_dt := Analyze.hwLe_arrival_le hkey hqr
    refine ⟨hrmem, hqmem, hkey, hts, ?_, ?_⟩
    · intro w hw hwkey hbetween
      obtain ⟨hw1, hw2⟩ := hbetween
      have hws : w ∈ b.reverse ++ q :: (a.reverse ++ r :: l₂) :=
        hperm.symm.subset hw
      rcases List.mem_append.mp hws with hwb | hwrest
      · have hle : Analyze.hwLe w q := hB w hwb q (List.mem_cons_self _ _)
        have : w.arrival_dt ≤ q.arrival_dt :=
          Analyze.hwLe_arrival_le (hwkey.trans hkey.symm) hle
        exact absurd (lt_of_lt_of_le hw1 this) (lt_irrefl _)
      · rcases List.mem_cons.mp hwrest with rfl | hwrest2
        · exact absurd hw1 (lt_irrefl _)
        · rcases List.mem_append.mp hwrest2 with hwa | hwr
          · have : (Analyze.groupKey w == Analyze.groupKey r) = false :=
              ha w (List.mem_reverse.mp hwa)
            rw [hwkey] at this
            simp at this
          · rcases List.mem_cons.mp hwr with rfl | hwl₂
            · exact absurd hw2 (lt_irrefl _)
            · have hle : Analyze.hwLe r w := hr w hwl₂
              have : r.arrival_dt ≤ w.arrival_dt :=
                Analyze.hwLe_arrival_le hwkey.symm hle
              exact absurd (lt_of_lt_of_le hw2 this) (lt_irrefl _)
    · intro hmin
      have hge : r.arrival_dt ≤ q.arrival_dt := hmin q hqmem hkey
      have heq : r.arrival_dt - q.arrival_dt = 0 := by
        have := le_antisymm hts hge
        rw [this]; ring
      have h1 := hc.1
      rw [heq, zero_div] at h1
      exact absurd h1 (by norm_num)

namespace Analyze

/-- The single observation produced from `[recA, recB]`. -/
def obsAB : HwObs := ⟨recB, recA, (recB.arrival_dt - recA.arrival_dt) / 60⟩

/-- Synthetic Early-AM arrival at 02:00:00 (7200 s). -/
def recE1 : HwRec := ⟨0, "N", "1: Early AM (12–6 AM)", "Weekday", "Before swap", 7200⟩

/-- Synthetic Early-AM arrival at 03:25:00 (12300 s), 85 minutes later. -/
def recE2 : HwRec := ⟨0, "N", "1: Early AM (12–6 AM)", "Weekday", "Before swap", 12300⟩

/-- The single observation produced from `[recE1, recE2]`. -/
def obsE : HwObs := ⟨recE2, recE1, (recE2.arrival_dt - recE1.arrival_dt) / 60⟩

end Analyze

/-- C1 witness: the pairing theorem applied to the concrete two-record
frame `[recA, recB]` and its observation. -/
theorem compute_headways_group_pairing_witness :
    Analyze.obsAB ∈ Analyze.compute_headways [Analyze.recA, Analyze.recB] ∧
    Analyze.groupKey Analyze.obsAB.prev = Analyze.groupKey Analyze.obsAB.cur ∧
    Analyze.obsAB.prev.arrival_dt ≤ Analyze.obsAB.cur.arrival_dt :=
  have hm : Analyze.obsAB ∈ Analyze.compute_headways [Analyze.recA, Analyze.recB] := by
    have h : Analyze.compute_headways [Analyze.recA, Analyze.recB] = [Analyze.obsAB] := by
      with_unfolding_all rfl
    rw [h]
    exact List.mem_singleton_self _
  ⟨hm, (compute_headways_group_pairing _ _ hm).2.2.1,
    (compute_headways_group_pairing _ _ hm).2.2.2.1⟩

/-- C2 witness: the bounds theorem applied to the concrete Early-AM frame
`[recE1, recE2]` and its 85-minute observation. -/
theorem compute_headways_bounds_witness :
    Analyze.obsE ∈ Analyze.compute_headways [Analyze.recE1, Analyze.recE2] ∧
    Analyze.is_early_bucket Analyze.obsE.cur.time_bucket = true ∧
    1 ≤ Analyze.obsE.headway_min ∧ Analyze.obsE.headway_min ≤ 90 :=
  have hm : Analyze.obsE ∈ Analyze.compute_headways [Analyze.recE1, Analyze.recE2] := by
    have h : Analyze.compute_headways [Analyze.recE1, Analyze.recE2] = [Analyze.obsE] := by
      with_unfolding_all rfl
    rw [h]
    exact List.mem_singleton_self _
  ⟨hm, by decide, (compute_headways_bounds _ _ hm).1,
    (compute_headways_bounds _ _ hm).2.1 (by decide)⟩

/-- Round half to even (the rounding of numpy/pandas) to an integer. -/
def roundHalfEven (y : ℚ) : ℤ :=
  if y - ⌊y⌋ < 1/2 then ⌊y⌋
  else if 1/2 < y - ⌊y⌋ then ⌊y⌋ + 1
  else if ⌊y⌋ % 2 = 0 then ⌊y⌋ else ⌊y⌋ + 1

/-- Rounding `.round(1)` of pandas: round half to even at one decimal place. -/
def round1 (x : ℚ) : ℚ := (roundHalfEven (x * 10) : ℚ) / 10

/-- Ascending sort of a numeric column (what median/quantile sort
internally). -/
def sortQ (xs : List ℚ) : List ℚ := List.insertionSort (· ≤ ·) xs

/-- Aggregation `Series.median()` of pandas: the middle element of the sorted values
when the count is odd, the mean of the two middle elements when it is
even; 0 for an empty series (the embedded callers only apply it to
non-empty groups). -/
def pandasMedian (xs : List ℚ) : ℚ :=
  let s := sortQ xs
  let n := s.length
  if n = 0 then 0
  else if n % 2 = 1 then s.getD (n / 2) 0
  else (s.getD (n / 2 - 1) 0 + s.getD (n / 2) 0) / 2

/-- Aggregation `Series.quantile(q)` of pandas with its default linear interpolation,
which is also the "standard definition" required by §4.5 of the spec: the
value at position `q * (n - 1)` of the sorted list, interpolating linearly
between the two neighbouring elements. -/
def quantileLinear (q : ℚ) (xs : List ℚ) : ℚ :=
  let s := sortQ xs
  let n := s.length
  if n = 0 then 0
  else
    let pos : ℚ := q * ((n : ℚ) - 1)
    let lo : ℕ := ⌊pos⌋.toNat
    let frac : ℚ := pos - (lo : ℚ)
    let a := s.getD lo 0
    let b := s.getD (min (lo + 1) (n - 1)) 0
    a + frac * (b - a)

namespace DataLoader

/-- One row of `roosevelt_island_headways.csv` as consumed by
`_load_from_csv` in `data_loader.py`: the persisted columns the dashboard
prepare step reads.  `headway_min` may hold any value — `_prepare`
re-filters. -/
structure CsvRow where
  arrival_date : ℤ
  hour : ℕ
  direction : String
  is_weekday : Bool
  headway_min : ℚ
deriving DecidableEq, Repr

/-- Constant `SWAP_DATE = date(2025, 12, 8)` as an ordinal day number. -/
def SWAP_DATE : ℤ := 20430

/-- Set `SWAP_ACTIVE_BUCKETS` from `data_loader.py`. -/
def SWAP_ACTIVE_BUCKETS : List String :=
  ["Morning Rush (6–9 AM)", "Midday (9 AM–4 PM)", "Evening Rush (4–7 PM)"]

/-- A prepared dashboard row: a `CsvRow` plus the derived columns that
`_prepare` adds. -/
structure PrepRow where
  arrival_date : ℤ
  hour : ℕ
  direction : String
  is_weekday : Bool
  headway_min : ℚ
  swap_period : String
  day_type : String
  time_bucket : String
  within_swap_window : Bool
deriving DecidableEq, Repr

/-- Function `_prepare(df)` from `data_loader.py` (leading underscore dropped):
first keeps rows with `headway_min <= 90` when `hour < 6` and
`headway_min <= 60` otherwise, then keeps rows with `headway_min >= 1`,
then adds the derived `swap_period`, `day_type`, `time_bucket` and
`within_swap_window` columns. -/
def prepare (df : List CsvRow) : List PrepRow :=
  let f1 := df.filter fun r =>
    (decide (r.hour < 6) && decide (r.headway_min ≤ 90)) ||
    (!decide (r.hour < 6) && decide (r.headway_min ≤ 60))
  let f2 := f1.filter fun r => decide (1 ≤ r.headway_min)
  f2.map fun r =>
    ⟨r.arrival_date, r.hour, r.direction, r.is_weekday, r.headway_min,
      if SWAP_DATE ≤ r.arrival_date then "After swap" else "Before swap",
      if r.is_weekday then "Weekday" else "Weekend",
      assign_bucket r.hour,
      r.is_weekday && SWAP_ACTIVE_BUCKETS.contains (assign_bucket r.hour)⟩

/-- Function `get_median(df, day_type, bucket, direction, period)` from
`data_loader.py`: the median of the filtered `headway_min` subset, the
`None` sentinel when the subset is empty. -/
def get_median (df : List PrepRow) (day_type bucket direction period : String) :
    Option ℚ :=
  let sub := (df.filter fun r =>
    r.day_type == day_type && r.time_bucket == bucket &&
    r.direction == direction && r.swap_period == period).map
      (fun r => r.headway_min)
  if sub.isEmpty then none else some (pandasMedian sub)

/-- Function `get_pct_over(df, threshold, direction, period, day_type)` from
`data_loader.py`: the percentage of the filtered swap-window subset whose
`headway_min` strictly exceeds the threshold, the `None` sentinel when the
subset is empty. -/
def get_pct_over (df : List PrepRow) (threshold : ℚ)
    (direction period day_type : String) : Option ℚ :=
  let sub := (df.filter fun r =>
    r.within_swap_window && r.day_type == day_type &&
    r.direction == direction && r.swap_period == period).map
      (fun r => r.headway_min)
  if sub.isEmpty then none
  else some (100 * ((sub.countP (fun x => decide (threshold < x)) : ℚ) / (sub.length : ℚ)))

end DataLoader

/-- C4: `get_median` and `get_pct_over` return the `None` sentinel exactly
when their filtered subset is empty — in particular they never raise (both
are total functions) and never answer `some 0` for an empty subset. -/
theorem query_empty_sentinel (df : List DataLoader.PrepRow)
    (day_type bucket direction period : String) (threshold : ℚ) :
    (DataLoader.get_median df day_type bucket direction period = none ↔
      (df.filter fun r =>
        r.day_type == day_type && r.time_bucket == bucket &&
        r.direction == direction && r.swap_period == period) = []) ∧
    (DataLoader.get_pct_over df threshold direction period day_type = none ↔
      (df.filter fun r =>
        r.within_swap_window && r.day_type == day_type &&
        r.direction == direction && r.swap_period == period) = []) := by
  constructor
  · unfold DataLoader.get_median
    by_cases h : (df.filter fun r =>
        r.day_type == day_type && r.time_bucket == bucket &&
        r.direction == direction && r.swap_period == period) = []
    · simp [h]
    · simp [h]
  · unfold DataLoader.get_pct_over
    by_cases h : (df.filter fun r =>
        r.within_swap_window && r.day_type == day_type &&
        r.direction == direction && r.swap_period == period) = []
    · simp [h]
    · simp [h]

/-- C4 witness: the sentinel theorem applied to the empty dataset and the
Scenario D query (`"Weekday"`, evening rush, `"N"`, `"After swap"`). -/
theorem query_empty_sentinel_witness :
    DataLoader.get_median [] "Weekday" "Evening Rush (4–7 PM)" "N" "After swap" = none ∧
    DataLoader.get_pct_over [] 10 "N" "After swap" "Weekday" = none :=
  ⟨(query_empty_sentinel [] "Weekday" "Evening Rush (4–7 PM)" "N" "After swap" 10).1.mpr
      (by decide),
   (query_empty_sentinel [] "Weekday" "Evening Rush (4–7 PM)" "N" "After swap" 10).2.mpr
      (by decide)⟩

/-- C10: every row of the dataset returned by the dashboard prepare step
satisfies the headway floor and the hour-dependent ceiling — for any input
CSV, including one with out-of-range `headway_min` values. -/
theorem prepare_bounds (df : List DataLoader.CsvRow) :
    ∀ row ∈ DataLoader.prepare df,
      1 ≤ row.headway_min ∧
      (row.hour < 6 → row.headway_min ≤ 90) ∧
      (6 ≤ row.hour → row.headway_min ≤ 60) := by
  intro row hrow
  unfold DataLoader.prepare at hrow
  rw [List.mem_map] at hrow
  obtain ⟨r, hr, rfl⟩ := hrow
  rw [List.mem_filter] at hr
  obtain ⟨hr1, h2⟩ := hr
  rw [List.mem_filter] at hr1
  obtain ⟨_, h1⟩ := hr1
  simp only [Bool.or_eq_true, Bool.and_eq_true, Bool.not_eq_true',
    decide_eq_true_eq, decide_eq_false_iff_not] at h1
  simp only [decide_eq_true_eq] at h2
  refine ⟨h2, ?_, ?_⟩
  · intro hlt6
    rcases h1 with ⟨_, h90⟩ | ⟨hge, _⟩
    · exact h90
    · exact absurd hlt6 hge
  · intro h6
    rcases h1 with ⟨hlt, _⟩ | ⟨_, h60⟩
    · exact absurd (show (6:ℕ) ≤ r.hour from h6) (by omega)
    · exact h60

namespace DataLoader

/-- A CSV row below the headway floor (filtered out by `prepare`). -/
def csvLow : CsvRow := ⟨20000, 8, "N", true, 0⟩

/-- An in-range CSV row (kept by `prepare`). -/
def csvGood : CsvRow := ⟨20000, 8, "N", true, 5⟩

/-- A CSV row above the 60-minute daytime ceiling (filtered out). -/
def csvHigh : CsvRow := ⟨20000, 8, "N", true, 200⟩

/-- The prepared row that `prepare` derives from `csvGood`. -/
def prepGood : PrepRow :=
  ⟨20000, 8, "N", true, 5, "Before swap", "Weekday", "Morning Rush (6–9 AM)", true⟩

end DataLoader

/-- C10 witness: the prepare-bounds theorem applied to a concrete CSV that
contains both out-of-range rows and one good row. -/
theorem prepare_bounds_witness :
    DataLoader.prepGood ∈
      DataLoader.prepare [DataLoader.csvLow, DataLoader.csvGood, DataLoader.csvHigh] ∧
    1 ≤ DataLoader.prepGood.headway_min :=
  have hm : DataLoader.prepGood ∈
      DataLoader.prepare [DataLoader.csvLow, DataLoader.csvGood, DataLoader.csvHigh] := by
    decide
  ⟨hm, (prepare_bounds _ _ hm).1⟩

namespace Analyze

/-- One row of the embedded `stop_times.csv` resource after
`pd.to_numeric(..., errors="coerce")` on its two time columns:
`arrival_time` / `departure_time` are `none` when missing or unparseable.
`sid` is a synthetic row identity used only to state theorems. -/
structure StRow where
  sid : ℕ
  stop_id : String
  trip_uid : ℕ
  arrival_time : Option ℚ
  departure_time : Option ℚ
deriving DecidableEq, Repr

/-- One row of the embedded `trips.csv` resource
(`usecols=["trip_uid", "route_id", "direction_id"]`). -/
structure TripRow where
  trip_uid : ℕ
  route_id : String
  direction_id : ℕ
deriving DecidableEq, Repr

/-- Constant `ROOSEVELT_ISLAND_STOP_IDS` from `3_analyze.py`. -/
def ROOSEVELT_ISLAND_STOP_IDS : List String := ["B06N", "B06S"]

/-- One row of the dataframe `load_one_day` returns: the stop-time
columns, the left-joined trip metadata (`none` when no trip matched), the
filled `timestamp` and the archive's nominal `calendar_date`. -/
structure LoadedRec where
  sid : ℕ
  stop_id : String
  trip_uid : ℕ
  arrival_time : Option ℚ
  departure_time : Option ℚ
  timestamp : ℚ
  route_id : Option String
  direction_id : Option ℕ
  calendar_date : ℤ
deriving DecidableEq, Repr

/-- Join `stop_times.merge(trips, on="trip_uid", how="left")`: each stop-time
row is paired with every matching trip row, or with `none` when no trip
matches. -/
def mergeLeft (st : List StRow) (tr : List TripRow) :
    List (StRow × Option TripRow) :=
  st.flatMap fun r =>
    match tr.filter (fun t => t.trip_uid == r.trip_uid) with
    | [] => [(r, none)]
    | ms => ms.map fun t => (r, some t)

/-- Function `load_one_day(tar_path, file_date)` from `3_analyze.py`, from the two
embedded tabular resources on: filter the stop-times to the target stop
set, return an empty frame when nothing matches, left-merge the trip
metadata, compute `timestamp = arrival_time.fillna(departure_time)` and
drop rows whose `timestamp` is missing. -/
def load_one_day (st : List StRow) (tr : List TripRow) (file_date : ℤ) :
    List LoadedRec :=
  if (st.filter fun r => ROOSEVELT_ISLAND_STOP_IDS.contains r.stop_id).isEmpty then []
  else
    (mergeLeft (st.filter fun r => ROOSEVELT_ISLAND_STOP_IDS.contains r.stop_id)
        tr).filterMap fun p =>
      match p.1.arrival_time.orElse (fun _ => p.1.departure_time) with
      | none => none
      | some t =>
        some ⟨p.1.sid, p.1.stop_id, p.1.trip_uid, p.1.arrival_time,
          p.1.departure_time, t, p.2.map (fun x => x.route_id),
          p.2.map (fun x => x.direction_id), file_date⟩

end Analyze

/-- C6: every row loaded by `load_one_day` takes its `timestamp` from the
numeric arrival time when that is present, and from the numeric departure
time otherwise; rows with neither are dropped (every loaded row still
carries at least one of the two); and a stop-time row of the target stop
set with a usable timestamp but no matching trip is kept by the left join,
with an unknown (`none`) route. -/
theorem load_one_day_timestamp_left_join
    (st : List Analyze.StRow) (tr : List Analyze.TripRow) (d : ℤ) :
    (∀ rec ∈ Analyze.load_one_day st tr d,
      (∀ a, rec.arrival_time = some a → rec.timestamp = a) ∧
      (rec.arrival_time = none →
        ∀ b, rec.departure_time = some b → rec.timestamp = b) ∧
      (rec.arrival_time ≠ none ∨ rec.departure_time ≠ none)) ∧
    (∀ r ∈ st, Analyze.ROOSEVELT_ISLAND_STOP_IDS.contains r.stop_id = true →
      (r.arrival_time ≠ none ∨ r.departure_time ≠ none) →
      (∀ t ∈ tr, t.trip_uid ≠ r.trip_uid) →
      ∃ rec ∈ Analyze.load_one_day st tr d,
        rec.sid = r.sid ∧ rec.route_id = none) := by
  constructor
  · intro rec hrec
    unfold Analyze.load_one_day at hrec
    split at hrec
    · cases hrec
    · rw [List.mem_filterMap] at hrec
      obtain ⟨⟨q, ot⟩, _, hf⟩ := hrec
      cases ha : q.arrival_time with
      | some a =>
        have horelse : (q, ot).1.arrival_time.orElse
            (fun _ => (q, ot).1.departure_time) = some a := by
          simp [ha]
        rw [horelse] at hf
        simp only [Option.some.injEq] at hf
        subst hf
        refine ⟨?_, ?_, Or.inl (by simp [ha])⟩
        · intro a' ha'
          simp only [ha, Option.some.injEq] at ha'
          exact ha' 
        · intro hnone
          rw [ha] at hnone
          cases hnone
      | none =>
        cases hd : q.departure_time with
        | none =>
          have horelse : (q, ot).1.arrival_time.orElse
              (fun _ => (q, ot).1.departure_time) = none := by
            simp [ha, hd]
          rw [horelse] at hf
          cases hf
        | some b =>
          have horelse : (q, ot).1.arrival_time.orElse
              (fun _ => (q, ot).1.departure_time) = some b := by
            simp [ha, hd]
          rw [horelse] at hf
          simp only [Option.some.injEq] at hf
          subst hf
          refine ⟨?_, ?_, Or.inr (by simp [hd])⟩
          · intro a' ha'
            rw [ha] at ha'
            cases ha'
          · intro _ b' hb'
            simp only [hd, Option.some.injEq] at hb'
            exact hb' 
  · intro r hr hstop hts htr
    have hr1 : r ∈ st.filter
        (fun x => Analyze.ROOSEVELT_ISLAND_STOP_IDS.contains x.stop_id) :=
      List.mem_filter.mpr ⟨hr, hstop⟩
    have hne : (st.filter
        (fun x => Analyze.ROOSEVELT_ISLAND_STOP_IDS.contains x.stop_id)).isEmpty = false :=
      List.isEmpty_eq_false.mpr (List.ne_nil_of_mem hr1)
    have hfilnil : tr.filter (fun t => t.trip_uid == r.trip_uid) = [] := by
      rw [List.filter_eq_nil_iff]
      intro t ht
      simpa using htr t ht
    have hmerge : (r, (none : Option Analyze.TripRow)) ∈
        Analyze.mergeLeft (st.filter
          (fun x => Analyze.ROOSEVELT_ISLAND_STOP_IDS.contains x.stop_id)) tr := by
      unfold Analyze.mergeLeft
      rw [List.mem_flatMap]
      refine ⟨r, hr1, ?_⟩
      rw [hfilnil]
      exact List.mem_singleton_self _
    unfold Analyze.load_one_day
    rw [if_neg (by rw [hne]; exact fun h => Bool.noConfusion h)]
    cases ha : r.arrival_time with
    | some a =>
      refine ⟨⟨r.sid, r.stop_id, r.trip_uid, r.arrival_time, r.departure_time,
        a, none, none, d⟩, ?_, rfl, rfl⟩
      rw [List.mem_filterMap]
      exact ⟨(r, none), hmerge, by simp [ha]⟩
    | none =>
      cases hd : r.departure_time with
      | none =>
        rcases hts with h | h
        · exact absurd ha h
        · exact absurd hd h
      | some b =>
        refine ⟨⟨r.sid, r.stop_id, r.trip_uid, r.arrival_time, r.departure_time,
          b, none, none, d⟩, ?_, rfl, rfl⟩
        rw [List.mem_filterMap]
        exact ⟨(r, none), hmerge, by simp [ha, hd]⟩

namespace Analyze

/-- A target-stop stop-time row with a parseable arrival time and a
`trip_uid` that no trips row matches. -/
def stW : StRow := ⟨0, "B06N", 42, some 100, none⟩

end Analyze

/-- C6 witness: the loader theorem applied to a one-row stop-times frame
with an empty trips frame — the row is kept with unknown route, and its
timestamp is the arrival time. -/
theorem load_one_day_timestamp_left_join_witness :
    (∃ rec ∈ Analyze.load_one_day [Analyze.stW] [] 0,
      rec.sid = Analyze.stW.sid ∧ rec.route_id = none) ∧
    (∀ rec ∈ Analyze.load_one_day [Analyze.stW] [] 0,
      rec.arrival_time ≠ none ∨ rec.departure_time ≠ none) :=
  ⟨(load_one_day_timestamp_left_join [Analyze.stW] [] 0).2 Analyze.stW
      (by decide) (by decide) (by decide) (by decide),
   fun rec hrec =>
    ((load_one_day_timestamp_left_join [Analyze.stW] [] 0).1 rec hrec).2.2⟩

namespace Analyze

/-- The exceptions `load_all_data` can raise: `noFiles` is the
`FileNotFoundError` for a directory with zero archive files, `emptyConcat`
is the `ValueError` that `pd.concat` raises on an empty list of frames. -/
inductive LoadErr where
  | noFiles
  | emptyConcat
deriving DecidableEq, Repr

/-- One archive file of the raw-data directory as `load_all_data` sees it.
`parsedDate` is the date parsed from the filename — `none` when the
filename does not split into `prefix_YYYY-MM-DD_...`; `loaded` is the
outcome of `load_one_day` on the file — `none` when the per-file load
raises, `some rows` (possibly empty) when it returns. -/
structure ArchiveFile where
  parsedDate : Option ℤ
  loaded : Option (List LoadedRec)
deriving DecidableEq, Repr

/-- The per-day frames accumulated in `all_dfs` by `load_all_data`: files
with an unparseable filename are skipped (`[SKIP]`), files whose load
raises are skipped (`[ERR]`), and empty per-day frames are not appended. -/
def keptFrames (files : List ArchiveFile) : List (List LoadedRec) :=
  files.filterMap fun f =>
    match f.parsedDate with
    | none => none
    | some _ =>
      match f.loaded with
      | none => none
      | some rows => if rows.isEmpty then none else some rows

/-- Function `load_all_data(raw_dir)` from `3_analyze.py`: raise `FileNotFoundError`
when the directory holds no archive files; otherwise skip unusable files
and `pd.concat` the accumulated frames — which raises `ValueError` when
every file was skipped or empty. -/
def load_all_data (files : List ArchiveFile) : Except LoadErr (List LoadedRec) :=
  if files.isEmpty then .error .noFiles
  else if (keptFrames files).isEmpty then .error .emptyConcat
  else .ok (keptFrames files).flatten

end Analyze

/-- C5 counterexample: a directory with exactly one archive file whose
filename does not match the date pattern is non-empty, yet `load_all_data`
raises — `pd.concat` is applied to an empty list of frames — contradicting
the claim that for any non-empty set of archive files the loader returns
without raising. -/
theorem load_all_data_cex :
    ([(⟨none, some []⟩ : Analyze.ArchiveFile)] ≠ []) ∧
    Analyze.load_all_data [⟨none, some []⟩] =
      Except.error Analyze.LoadErr.emptyConcat :=
  ⟨by simp, rfl⟩

/-- C5 amended: `load_all_data` raises exactly when the directory contains
zero archive files (`FileNotFoundError`) or when every archive file is
skipped or yields an empty frame (the `ValueError` of `pd.concat`); as soon
as at least one usable per-day frame exists, per-file problems are only
skipped and the loader returns the concatenation of the kept frames
without raising. -/
theorem load_all_data_raises_iff (files : List Analyze.ArchiveFile) :
    ((Analyze.load_all_data files).isOk = false ↔
      files = [] ∨ Analyze.keptFrames files = []) ∧
    (Analyze.keptFrames files ≠ [] →
      Analyze.load_all_data files = .ok (Analyze.keptFrames files).flatten) := by
  unfold Analyze.load_all_data
  by_cases h1 : files = []
  · subst h1
    simp [Analyze.keptFrames, Except.isOk, Except.toBool]
  · have h1' : files.isEmpty = false := List.isEmpty_eq_false.mpr h1
    by_cases h2 : Analyze.keptFrames files = []
    · simp [h1', h2, Except.isOk, Except.toBool, h1]
    · have h2' : (Analyze.keptFrames files).isEmpty = false :=
        List.isEmpty_eq_false.mpr h2
      simp [h1', h2', Except.isOk, Except.toBool, h1, h2]

namespace Analyze

/-- An archive file with a well-formed filename whose load returns one
record. -/
def fileW : ArchiveFile :=
  ⟨some 20000, some [⟨0, "B06N", 42, some 100, none, 100, none, none, 20000⟩]⟩

end Analyze

/-- C5 witness: the amended theorem applied to a one-file directory whose
file yields a usable frame — the loader returns it without raising. -/
theorem load_all_data_raises_iff_witness :
    Analyze.load_all_data [Analyze.fileW] =
      .ok (Analyze.keptFrames [Analyze.fileW]).flatten :=
  (load_all_data_raises_iff [Analyze.fileW]).2 (by decide)

/-- The pandas median coincides with the linearly interpolated quantile at
`q = 1/2` — the "standard definition" linear interpolation of §4.5. -/
lemma median_eq_quantile_half (xs : List ℚ) :
    pandasMedian xs = quantileLinear (1/2) xs := by
  simp only [pandasMedian, quantileLinear]
  by_cases h0 : (sortQ xs).length = 0
  · simp [h0]
  · rw [if_neg h0, if_neg h0]
    rcases Nat.even_or_odd (sortQ xs).length with ⟨k, hk⟩ | ⟨k, hk⟩
    · have hk1 : 1 ≤ k := by omega
      rw [hk]
      rw [if_neg (by omega : ¬(k + k) % 2 = 1)]
      have hdiv : (k + k) / 2 = k := by omega
      rw [hdiv]
      have hpos : (1/2 : ℚ) * (((k + k : ℕ) : ℚ) - 1) = (k : ℚ) - 1/2 := by
        push_cast; ring
      rw [hpos]
      have hfloor : ⌊(k : ℚ) - 1/2⌋ = (k : ℤ) - 1 := by
        rw [Int.floor_eq_iff]
        constructor
        · push_cast; linarith
        · push_cast; linarith
      rw [hfloor]
      have htn : ((k : ℤ) - 1).toNat = k - 1 := by omega
      rw [htn]
      have hc : (((k - 1 : ℕ)) : ℚ) = (k : ℚ) - 1 := by
        rw [Nat.cast_sub hk1, Nat.cast_one]
      rw [hc]
      have hmin1 : k - 1 + 1 = k := by omega
      rw [hmin1]
      have hmin2 : min k (k + k - 1) = k := by omega
      rw [hmin2]
      ring
    · rw [hk]
      rw [if_pos (by omega : (2 * k + 1) % 2 = 1)]
      have hdiv : (2 * k + 1) / 2 = k := by omega
      rw [hdiv]
      have hpos : (1/2 : ℚ) * (((2 * k + 1 : ℕ) : ℚ) - 1) = (k : ℚ) := by
        push_cast; ring
      rw [hpos]
      rw [Int.floor_natCast]
      have htn : ((k : ℤ)).toNat = k := by omega
      rw [htn]
      ring

namespace Analyze

/-- The `groupby` key of `summarize_headways`:
`["day_type", "time_bucket", "swap_period", "direction"]` of an
observation row. -/
def obsKey (o : HwObs) : String × String × String × String :=
  (o.cur.day_type, o.cur.time_bucket, o.cur.swap_period, o.cur.direction)

/-- Code-point lexicographic order on the groupby key (pandas sorts the
group keys ascending). -/
def keyLex (k : String × String × String × String) :
    Lex (List Char × Lex (List Char × Lex (List Char × List Char))) :=
  toLex (k.1.data, toLex (k.2.1.data, toLex (k.2.2.1.data, k.2.2.2.data)))

/-- Group-key order for the groupby of `summarize_headways`. -/
def keyLe (a b : String × String × String × String) : Prop := keyLex a ≤ keyLex b

instance : DecidableRel keyLe := fun a b =>
  inferInstanceAs (Decidable (keyLex a ≤ keyLex b))

instance : IsTotal (String × String × String × String) keyLe :=
  ⟨fun a b => le_total (keyLex a) (keyLex b)⟩

instance : IsTrans (String × String × String × String) keyLe :=
  ⟨fun _ _ _ hab hbc => le_trans hab hbc⟩

/-- The relabelling `s["direction"].map({"N": ..., "S": ...})` of
`summarize_headways`; any other code maps to missing (pandas NaN). -/
def dirMap (d : String) : Option String :=
  if d = "N" then some "Northbound (→ Queens/Home)"
  else if d = "S" then some "Southbound (→ Manhattan)"
  else none

/-- One row of the summary table returned by `summarize_headways`
(`direction` is already relabelled; `none` models NaN). -/
structure SummaryRow where
  day_type : String
  time_bucket : String
  swap_period : String
  direction : Option String
  n : ℕ
  median : ℚ
  mean : ℚ
  p25 : ℚ
  p75 : ℚ
  p90 : ℚ
deriving DecidableEq, Repr

/-- Sort key of the final
`sort_values(["day_type", "time_bucket", "direction", "swap_period"])`:
code-point lexicographic, with a missing direction (NaN) sorting last
(pandas `na_position="last"`), modelled by `⊤` of `WithTop`. -/
def sumKey (r : SummaryRow) :
    Lex (List Char × Lex (List Char × Lex (WithTop (List Char) × List Char))) :=
  toLex (r.day_type.data, toLex (r.time_bucket.data,
    toLex ((match r.direction with
            | none => (⊤ : WithTop (List Char))
            | some s => ((s.data : List Char) : WithTop (List Char))),
      r.swap_period.data)))

/-- Row order of the final sort of `summarize_headways`. -/
def sumLe (a b : SummaryRow) : Prop := sumKey a ≤ sumKey b

instance : DecidableRel sumLe := fun a b =>
  inferInstanceAs (Decidable (sumKey a ≤ sumKey b))

instance : IsTotal SummaryRow sumLe := ⟨fun a b => le_total (sumKey a) (sumKey b)⟩

instance : IsTrans SummaryRow sumLe := ⟨fun _ _ _ hab hbc => le_trans hab hbc⟩

/-- The `headway_min` values of one (day_type, time_bucket, swap_period,
direction) group, in frame order. -/
def groupVals (df : List HwObs) (k : String × String × String × String) : List ℚ :=
  (df.filter fun o => obsKey o == k).map fun o => o.headway_min

/-- The aggregated row of one group of `summarize_headways`:
`n/median/mean/p25/p75/p90` rounded to one decimal (`.round(1)`; the
integer count is unaffected by rounding), direction relabelled. -/
def mkSummaryRow (df : List HwObs) (k : String × String × String × String) :
    SummaryRow :=
  ⟨k.1, k.2.1, k.2.2.1, dirMap k.2.2.2,
    (groupVals df k).length,
    round1 (pandasMedian (groupVals df k)),
    round1 ((groupVals df k).sum / ((groupVals df k).length : ℚ)),
    round1 (quantileLinear (1/4) (groupVals df k)),
    round1 (quantileLinear (3/4) (groupVals df k)),
    round1 (quantileLinear (9/10) (groupVals df k))⟩

/-- Function `summarize_headways(df_hw)` from `3_analyze.py`: group the observation
rows by (day_type, time_bucket, swap_period, direction) — pandas `groupby`
sorts the group keys — aggregate each group, relabel the direction codes,
and sort the rows by (day_type, time_bucket, direction, swap_period). -/
def summarize_headways (df : List HwObs) : List SummaryRow :=
  List.insertionSort sumLe
    ((List.insertionSort keyLe (df.map obsKey).dedup).map (mkSummaryRow df))

end Analyze

/-- C7: the summary table of `summarize_headways` is sorted by
(day_type, time_bucket, direction, period); every row aggregates exactly
one non-empty (day_type, time_bucket, period, direction) group of the
input, carrying its count, its median and its 25th/75th/90th percentiles
computed by linear interpolation (the median equals the interpolated
50th percentile), and its mean, each rounded to one decimal place, with
the direction code mapped to its human-readable label only in this output
row; and every group occurring in the input has a summary row. -/
theorem summarize_headways_spec (df : List Analyze.HwObs) :
    List.Sorted Analyze.sumLe (Analyze.summarize_headways df) ∧
    (∀ row ∈ Analyze.summarize_headways df,
      ∃ k ∈ df.map Analyze.obsKey,
        row.day_type = k.1 ∧ row.time_bucket = k.2.1 ∧
        row.swap_period = k.2.2.1 ∧ row.direction = Analyze.dirMap k.2.2.2 ∧
        row.n = (Analyze.groupVals df k).length ∧
        row.median = round1 (quantileLinear (1/2) (Analyze.groupVals df k)) ∧
        row.mean = round1 ((Analyze.groupVals df k).sum /
          ((Analyze.groupVals df k).length : ℚ)) ∧
        row.p25 = round1 (quantileLinear (1/4) (Analyze.groupVals df k)) ∧
        row.p75 = round1 (quantileLinear (3/4) (Analyze.groupVals df k)) ∧
        row.p90 = round1 (quantileLinear (9/10) (Analyze.groupVals df k))) ∧
    (∀ o ∈ df, ∃ row ∈ Analyze.summarize_headways df,
      row.day_type = o.cur.day_type ∧ row.time_bucket = o.cur.time_bucket ∧
      row.swap_period = o.cur.swap_period ∧
      row.direction = Analyze.dirMap o.cur.direction) := by
  refine ⟨List.sorted_insertionSort _ _, ?_, ?_⟩
  · intro row hrow
    unfold Analyze.summarize_headways at hrow
    rw [(List.perm_insertionSort Analyze.sumLe _).mem_iff, List.mem_map] at hrow
    obtain ⟨k, hk, rfl⟩ := hrow
    rw [(List.perm_insertionSort Analyze.keyLe _).mem_iff, List.mem_dedup] at hk
    refine ⟨k, hk, rfl, rfl, rfl, rfl, rfl, ?_, rfl, rfl, rfl, rfl⟩
    exact congrArg round1 (median_eq_quantile_half _)
  · intro o ho
    refine ⟨Analyze.mkSummaryRow df (Analyze.obsKey o), ?_, rfl, rfl, rfl, rfl⟩
    unfold Analyze.summarize_headways
    rw [(List.perm_insertionSort Analyze.sumLe _).mem_iff, List.mem_map]
    refine ⟨Analyze.obsKey o, ?_, rfl⟩
    rw [(List.perm_insertionSort Analyze.keyLe _).mem_iff, List.mem_dedup,
      List.mem_map]
    exact ⟨o, ho, rfl⟩

namespace Analyze

/-- A single synthetic observation row for the aggregation witness. -/
def obsS : HwObs := ⟨recA, recA, 5⟩

end Analyze

/-- C7 witness: the aggregation theorem applied to a one-observation
input — its group appears in the summary with the relabelled direction. -/
theorem summarize_headways_spec_witness :
    ∃ row ∈ Analyze.summarize_headways [Analyze.obsS],
      row.day_type = Analyze.obsS.cur.day_type ∧
      row.time_bucket = Analyze.obsS.cur.time_bucket ∧
      row.swap_period = Analyze.obsS.cur.swap_period ∧
      row.direction = Analyze.dirMap Analyze.obsS.cur.direction :=
  (summarize_headways_spec [Analyze.obsS]).2.2 Analyze.obsS
    (List.mem_singleton_self _)
